import Mathlib

/-!
Verification of the legisync performance/caching core (result cache,
connection pool, performance monitor, embeddings service) against its
natural-language specification.  The Lean definitions below are a shallow
embedding of the Python sources in `backend/`:

* `cache_service.py`      → `Legisync.CacheService`
* `connection_pool.py`    → `Legisync.PoolState` and its operations
* `performance_monitor.py`→ `Legisync.PerfMonitor`
* `embeddings_service.py` → `Legisync.embedDocuments`

Machine-level details are embedded explicitly: Python's `hashlib.md5` is
implemented bit-for-bit over `Nat` with `% 2^32` where the algorithm
overflows, `str.lower/strip/split` and `re.sub(r'\s+', ' ', _)` are
modelled on character lists, and Python float division of small integer
counts is modelled over `ℚ` (exact at the 0.8 decision threshold used by
the cache, since `4/5` and the literal `0.8` round to the same double).
-/

namespace Legisync

set_option maxRecDepth 16000

/- The rational-arithmetic primitives are `@[irreducible]` upstream, which
blocks `decide`'s evaluation of the concrete cache states below; the kernel
itself reduces them fine, so they are restored to their definitional
transparency for this development. -/
attribute [local semireducible] Rat.add Rat.mul Rat.inv Rat.sub

/-! ## Python string primitives -/

/-- Python whitespace characters, as matched by `str.strip`, `str.split`
and the regex class `\s` (ASCII range). -/
def isPySpace (c : Char) : Bool :=
  c = ' ' || c = '\t' || c = '\n' || c = '\r' || c = '\x0b' || c = '\x0c'

/-- Python `str.lower()` restricted to ASCII (all strings reaching the
cache in the claims are ASCII; CPython lowercases `A`–`Z` the same way). -/
def pyLower (s : String) : String :=
  ⟨s.data.map Char.toLower⟩

/-- Python `str.strip()`: drop leading and trailing whitespace. -/
def pyStrip (s : String) : String :=
  ⟨(s.data.dropWhile isPySpace).reverse.dropWhile isPySpace |>.reverse⟩

/-- Structural worker for `collapseWS`; the fuel argument starts at the
length of the list and dominates the number of steps, so the fuel never
runs out on the initial call. -/
def collapseGo : Nat → List Char → List Char
  | 0, _ => []
  | _ + 1, [] => []
  | fuel + 1, c :: cs =>
    if isPySpace c then ' ' :: collapseGo fuel (cs.dropWhile isPySpace)
    else c :: collapseGo fuel cs

/-- Collapse every maximal run of whitespace into one space character,
i.e. `re.sub(r'\s+', ' ', s)`. -/
def collapseWS (l : List Char) : List Char :=
  collapseGo l.length l

/-- Helper for `pySplit`: accumulates the current (reversed) token. -/
def pySplitAux : List Char → List Char → List (List Char)
  | [], acc => if acc.isEmpty then [] else [acc.reverse]
  | c :: cs, acc =>
    if isPySpace c then
      if acc.isEmpty then pySplitAux cs [] else acc.reverse :: pySplitAux cs []
    else pySplitAux cs (c :: acc)

/-- Python `str.split()` with no argument: split on whitespace runs,
producing no empty tokens. -/
def pySplit (s : String) : List String :=
  (pySplitAux s.data []).map (fun l => ⟨l⟩)

/-! ## MD5 (as used by `hashlib.md5(...).hexdigest()`) -/

/-- UTF-8 encoding of one character (Python `str.encode()`). -/
def utf8Char (c : Char) : List Nat :=
  let n := c.toNat
  if n < 0x80 then [n]
  else if n < 0x800 then
    [0xC0 ||| (n >>> 6), 0x80 ||| (n &&& 0x3F)]
  else if n < 0x10000 then
    [0xE0 ||| (n >>> 12), 0x80 ||| ((n >>> 6) &&& 0x3F), 0x80 ||| (n &&& 0x3F)]
  else
    [0xF0 ||| (n >>> 18), 0x80 ||| ((n >>> 12) &&& 0x3F),
     0x80 ||| ((n >>> 6) &&& 0x3F), 0x80 ||| (n &&& 0x3F)]

/-- UTF-8 bytes of a string (Python `str.encode()`). -/
def utf8Bytes (s : String) : List Nat :=
  (s.data.map utf8Char).flatten

/-- The 64 MD5 sine-derived round constants `K[i] = ⌊|sin(i+1)|·2^32⌋`. -/
def md5K : List Nat :=
  [0xd76aa478, 0xe8c7b756, 0x242070db, 0xc1bdceee,
   0xf57c0faf, 0x4787c62a, 0xa8304613, 0xfd469501,
   0x698098d8, 0x8b44f7af, 0xffff5bb1, 0x895cd7be,
   0x6b901122, 0xfd987193, 0xa679438e, 0x49b40821,
   0xf61e2562, 0xc040b340, 0x265e5a51, 0xe9b6c7aa,
   0xd62f105d, 0x02441453, 0xd8a1e681, 0xe7d3fbc8,
   0x21e1cde6, 0xc33707d6, 0xf4d50d87, 0x455a14ed,
   0xa9e3e905, 0xfcefa3f8, 0x676f02d9, 0x8d2a4c8a,
   0xfffa3942, 0x8771f681, 0x6d9d6122, 0xfde5380c,
   0xa4beea44, 0x4bdecfa9, 0xf6bb4b60, 0xbebfbc70,
   0x289b7ec6, 0xeaa127fa, 0xd4ef3085, 0x04881d05,
   0xd9d4d039, 0xe6db99e5, 0x1fa27cf8, 0xc4ac5665,
   0xf4292244, 0x432aff97, 0xab9423a7, 0xfc93a039,
   0x655b59c3, 0x8f0ccc92, 0xffeff47d, 0x85845dd1,
   0x6fa87e4f, 0xfe2ce6e0, 0xa3014314, 0x4e0811a1,
   0xf7537e82, 0xbd3af235, 0x2ad7d2bb, 0xeb86d391]

/-- The per-round left-rotation amounts of MD5. -/
def md5S : List Nat :=
  [7, 12, 17, 22, 7, 12, 17, 22, 7, 12, 17, 22, 7, 12, 17, 22,
   5,  9, 14, 20, 5,  9, 14, 20, 5,  9, 14, 20, 5,  9, 14, 20,
   4, 11, 16, 23, 4, 11, 16, 23, 4, 11, 16, 23, 4, 11, 16, 23,
   6, 10, 15, 21, 6, 10, 15, 21, 6, 10, 15, 21, 6, 10, 15, 21]

/-- Bitwise complement on 32-bit words represented as `Nat`. -/
def not32 (x : Nat) : Nat := 0xFFFFFFFF - x

/-- Left rotation of a 32-bit word. -/
def rotl32 (x n : Nat) : Nat :=
  ((x <<< n) ||| (x >>> (32 - n))) % 2 ^ 32

/-- Little-endian byte encoding of `n` into `k` bytes. -/
def natLEBytes : Nat → Nat → List Nat
  | 0, _ => []
  | k + 1, n => (n % 256) :: natLEBytes k (n / 256)

/-- MD5 padding: append `0x80`, zero-pad to 56 mod 64, then the 64-bit
little-endian bit length of the original message. -/
def md5Pad (msg : List Nat) : List Nat :=
  let len := msg.length
  let zeros := (120 - (len + 1) % 64) % 64
  msg ++ [0x80] ++ List.replicate zeros 0 ++ natLEBytes 8 (8 * len % 2 ^ 64)

/-- Assemble little-endian 32-bit words from a byte list. -/
def bytesToWords : List Nat → List Nat
  | b0 :: b1 :: b2 :: b3 :: rest =>
    (b0 + 256 * b1 + 65536 * b2 + 16777216 * b3) :: bytesToWords rest
  | _ => []

/-- Structural worker for `chunksOf`: each step consumes at least one
element, so fuel equal to the list length suffices. -/
def chunksGo : Nat → Nat → List α → List (List α)
  | 0, _, _ => []
  | _ + 1, _, [] => []
  | _ + 1, 0, _ :: _ => []
  | fuel + 1, n + 1, x :: xs =>
    (x :: xs.take n) :: chunksGo fuel (n + 1) (xs.drop n)

/-- Split a list into chunks of `n` elements (`n ≥ 1`), as Python's
`lst[i:i+n]` slicing loop in `_process_uncached_embeddings` does. -/
def chunksOf (n : Nat) (l : List α) : List (List α) :=
  chunksGo l.length n l

/-- One of the 64 MD5 rounds acting on the state `(a, b, c, d)` with the
message words `M` of the current block. -/
def md5Round (M : List Nat) (st : Nat × Nat × Nat × Nat) (i : Nat) :
    Nat × Nat × Nat × Nat :=
  let (a, b, c, d) := st
  let fg : Nat × Nat :=
    if i < 16 then ((b &&& c) ||| (not32 b &&& d), i)
    else if i < 32 then ((d &&& b) ||| (not32 d &&& c), (5 * i + 1) % 16)
    else if i < 48 then (b ^^^ c ^^^ d, (3 * i + 5) % 16)
    else (c ^^^ (b ||| not32 d), (7 * i) % 16)
  let tmp := (a + fg.1 + md5K.getD i 0 + M.getD fg.2 0) % 2 ^ 32
  (d, (b + rotl32 tmp (md5S.getD i 0)) % 2 ^ 32, b, c)

/-- Process one 64-byte block, updating the running digest state. -/
def md5Block (h : Nat × Nat × Nat × Nat) (block : List Nat) :
    Nat × Nat × Nat × Nat :=
  let M := bytesToWords block
  let (a, b, c, d) := (List.range 64).foldl (md5Round M) h
  ((h.1 + a) % 2 ^ 32, (h.2.1 + b) % 2 ^ 32,
   (h.2.2.1 + c) % 2 ^ 32, (h.2.2.2 + d) % 2 ^ 32)

/-- MD5 digest of a byte list, as 16 bytes. -/
def md5Bytes (msg : List Nat) : List Nat :=
  let st := (chunksOf 64 (md5Pad msg)).foldl md5Block
    (0x67452301, 0xefcdab89, 0x98badcfe, 0x10325476)
  natLEBytes 4 st.1 ++ natLEBytes 4 st.2.1 ++ natLEBytes 4 st.2.2.1 ++
    natLEBytes 4 st.2.2.2

/-- Lower-case hexadecimal digit. -/
def hexDigit (n : Nat) : Char :=
  if n < 10 then Char.ofNat (48 + n) else Char.ofNat (87 + n)

/-- Lower-case hex string of a byte list. -/
def bytesToHex (bs : List Nat) : String :=
  ⟨(bs.map fun b => [hexDigit (b / 16), hexDigit (b % 16)]).flatten⟩

/-- Python `hashlib.md5(s.encode()).hexdigest()`. -/
def md5Hex (s : String) : String :=
  bytesToHex (md5Bytes (utf8Bytes s))

example : md5Hex "" = "d41d8cd98f00b204e9800998ecf8427e" := by decide
example : md5Hex "abc" = "900150983cd24fb0d6963f7d28e17f72" := by decide

/-! ## Result cache (`cache_service.py`)

`cachetools.TTLCache` is modelled as a list of entries tagged with their
absolute expiry time; reads filter out expired entries against the
current time, and writes expire, deduplicate, evict from the
least-recently-inserted end, then append. -/

/-- One stored cache entry with its absolute expiry time. -/
structure CacheEntry (V : Type) where
  key : String
  val : V
  expires : ℚ
deriving DecidableEq

/-- Model of `cachetools.TTLCache(maxsize, ttl)`. -/
structure TTLCacheM (V : Type) where
  maxsize : Nat
  ttl : ℚ
  entries : List (CacheEntry V)
deriving DecidableEq

namespace TTLCacheM

/-- Entries that are unexpired at time `now`. -/
def live (now : ℚ) (c : TTLCacheM V) : List (CacheEntry V) :=
  c.entries.filter fun e => decide (now < e.expires)

/-- `key in cache` / `cache[key]` on a `TTLCache`: a key resolves only
while its entry is unexpired. -/
def lookup (now : ℚ) (c : TTLCacheM V) (k : String) : Option V :=
  ((c.live now).find? fun e => e.key == k).map CacheEntry.val

/-- `cache[key] = value` on a `TTLCache`: drop expired entries, replace
any entry with the same key, evict oldest entries down to capacity, and
append the new entry with expiry `now + ttl`. -/
def setItem (now : ℚ) (c : TTLCacheM V) (k : String) (v : V) : TTLCacheM V :=
  let l0 := (c.live now).filter fun e => e.key != k
  let l1 := l0.drop (l0.length - (c.maxsize - 1))
  { c with entries := l1 ++ [⟨k, v, now + c.ttl⟩] }

end TTLCacheM

/-- State of `CacheService` (`cache_service.py`): the exact-key memory
cache plus the normalized-query similarity index.  The value type `V` is
the opaque response payload. -/
structure CacheService (V : Type) where
  memory_cache : TTLCacheM V
  similarity_cache : TTLCacheM String
deriving DecidableEq

/-- A freshly constructed `CacheService()` with its default sizes:
`TTLCache(maxsize=1000, ttl=300)` for results and
`TTLCache(maxsize=500, ttl=1800)` for the similarity index. -/
def CacheService.fresh (V : Type) : CacheService V :=
  { memory_cache := ⟨1000, 300, []⟩, similarity_cache := ⟨500, 1800, []⟩ }

/-- `_get_cache_key`: `f"{prefix}:{md5(query.lower().strip()).hexdigest()}"`. -/
def getCacheKey (query : String) (pfx : String := "rag") : String :=
  pfx ++ ":" ++ md5Hex (pyStrip (pyLower query))

/-- `_normalize_query`: `re.sub(r'\s+', ' ', query.lower().strip())`. -/
def normalizeQuery (query : String) : String :=
  ⟨collapseWS (pyStrip (pyLower query)).data⟩

/-- `_query_similarity`: Jaccard similarity of the whitespace-token sets
of the two strings, with empty union degrading to `0`.  Python divides
two small ints as floats; `ℚ` is exact and agrees with the float
comparison against the literal `0.8` (both `4/5` and `0.8` round to the
same double). -/
def querySimilarity (query1 query2 : String) : ℚ :=
  let set1 := (pySplit query1).toFinset
  let set2 := (pySplit query2).toFinset
  let intersection := (set1 ∩ set2).card
  let union := (set1 ∪ set2).card
  if 0 < union then (intersection : ℚ) / union else 0

/-- The similarity-tier scan of `get_cached_result`: the first live
similarity entry whose stored normalized query has Jaccard similarity
strictly greater than `0.8` against `nq`; yields the ORIGINAL query
stored as that entry's value. -/
def findSimilar (now : ℚ) (c : TTLCacheM String) (nq : String) : Option String :=
  ((c.live now).find? fun e => decide (querySimilarity nq e.key > 4 / 5)).map
    CacheEntry.val

/-- `get_cached_result`, with explicit recursion fuel: the Python code
recurses into itself on a similarity hit (`return await
self.get_cached_result(cached_key)`), so the embedding returns `none`
when the call would never return (fuel exhausted at every depth) and
`some r` when the call returns `r`. -/
def getCachedResult {V : Type} : Nat → ℚ → CacheService V → String → Option (Option V)
  | 0, _, _, _ => none
  | fuel + 1, now, svc, query =>
    let cache_key := getCacheKey query
    match svc.memory_cache.lookup now cache_key with
    | some result => some (some result)
    | none =>
      let normalized_query := normalizeQuery query
      match findSimilar now svc.similarity_cache normalized_query with
      | some cached_key => getCachedResult fuel now svc cached_key
      | none => some none

/-- `set_cached_result`: store the payload under the exact key and record
`normalized(query) → query` in the similarity index. -/
def setCachedResult (now : ℚ) (svc : CacheService V) (query : String) (result : V) :
    CacheService V :=
  { svc with
    memory_cache := svc.memory_cache.setItem now (getCacheKey query) result
    similarity_cache :=
      svc.similarity_cache.setItem now (normalizeQuery query) query }

/-- `find?` skips a prefix on which the predicate is everywhere false. -/
theorem find?_append_of_forall_not {α : Type} {p : α → Bool} {l1 l2 : List α}
    (h : ∀ x ∈ l1, p x = false) : (l1 ++ l2).find? p = l2.find? p := by
  induction l1 with
  | nil => simp
  | cons a l ih =>
    rw [List.cons_append, List.find?_cons_of_neg _ (by simp [h a (by simp)]),
      ih fun x hx => h x (List.mem_cons_of_mem _ hx)]

/-- Just-written entries are found by an immediate lookup, for any prior
cache contents, whenever the TTL is positive. -/
theorem TTLCacheM.lookup_setItem_self {V : Type} (c : TTLCacheM V) (now : ℚ)
    (k : String) (v : V) (h : 0 < c.ttl) :
    (c.setItem now k v).lookup now k = some v := by
  simp only [TTLCacheM.setItem, TTLCacheM.lookup, TTLCacheM.live, List.filter_append]
  rw [find?_append_of_forall_not]
  · simp [List.filter, List.find?, lt_add_iff_pos_right, h]
  · intro x hx
    have hx1 : x ∈ (c.entries.filter fun e => decide (now < e.expires)).filter
        (fun e => e.key != k) :=
      List.mem_of_mem_drop (List.mem_of_mem_filter hx)
    have := List.of_mem_filter hx1
    simpa using this

/-- C2: for every query string `Q` and response `R`, calling `set(Q, R)`
and then immediately calling `get(Q)` (same instant, hence before any TTL
expiry, and the just-written entry survives any same-call eviction)
returns `R`, and it does so as an exact-tier (tier-1) hit: the memory
cache itself resolves `Q`'s exact key to `R`. -/
theorem set_then_get_exact_hit {V : Type} (svc : CacheService V) (now : ℚ)
    (query : String) (result : V) (httl : 0 < svc.memory_cache.ttl) :
    (setCachedResult now svc query result).memory_cache.lookup now
        (getCacheKey query) = some result ∧
    ∀ fuel, getCachedResult (fuel + 1) now (setCachedResult now svc query result)
        query = some (some result) := by
  have hmem : (setCachedResult now svc query result).memory_cache.lookup now
      (getCacheKey query) = some result :=
    TTLCacheM.lookup_setItem_self _ _ _ _ httl
  refine ⟨hmem, fun fuel => ?_⟩
  simp only [getCachedResult]
  rw [hmem]

/-- Witness for `set_then_get_exact_hit` at a concrete fresh cache. -/
theorem set_then_get_exact_hit_witness :
    (0 : ℚ) < (CacheService.fresh Nat).memory_cache.ttl ∧
    ((setCachedResult 0 (CacheService.fresh Nat) "hello" 7).memory_cache.lookup 0
        (getCacheKey "hello") = some 7 ∧
     ∀ fuel, getCachedResult (fuel + 1) 0
        (setCachedResult 0 (CacheService.fresh Nat) "hello" 7) "hello" =
        some (some 7)) :=
  ⟨by norm_num [CacheService.fresh],
   set_then_get_exact_hit (CacheService.fresh Nat) 0 "hello" 7
     (by norm_num [CacheService.fresh])⟩

/-- C3 counterexample: the claim asserts a similarity-tier hit at Jaccard
similarity greater than OR EQUAL to 0.8, but `get_cached_result` uses the
strict test `similarity > 0.8`.  The queries `"a b c d"` and
`"a b c d e"` have token-set Jaccard similarity exactly `4/5 = 0.8`, the
entry for `"a b c d e"` is live and unevicted, yet `get("a b c d")` is a
miss (`some none`), not the stored payload. -/
theorem similarity_at_exact_threshold_misses :
    querySimilarity (normalizeQuery "a b c d") (normalizeQuery "a b c d e") =
      4 / 5 ∧
    getCachedResult 5 0 (setCachedResult 0 (CacheService.fresh Nat) "a b c d e" 1)
      "a b c d" = some none := by
  constructor
  · decide
  · decide

/-- Lookup in a one-entry cache: hit exactly when the entry is live and
the key matches. -/
theorem TTLCacheM.lookup_single {V : Type} (m : Nat) (t now exp : ℚ)
    (k k2 : String) (v : V) :
    (TTLCacheM.mk m t [⟨k, v, exp⟩]).lookup now k2 =
      if now < exp ∧ k = k2 then some v else none := by
  by_cases h1 : now < exp <;> by_cases h2 : k = k2 <;>
    simp [TTLCacheM.lookup, TTLCacheM.live, List.filter, List.find?, h1, h2]

/-- Similarity scan over a one-entry index: hit exactly when the entry is
live and strictly above the threshold. -/
theorem findSimilar_single (m : Nat) (t now exp : ℚ) (k v nq : String) :
    findSimilar now ⟨m, t, [⟨k, v, exp⟩]⟩ nq =
      if now < exp ∧ querySimilarity nq k > 4 / 5 then some v else none := by
  by_cases h1 : now < exp <;> by_cases h2 : querySimilarity nq k > 4 / 5 <;>
    simp [findSimilar, TTLCacheM.live, List.filter, List.find?, h1, h2]

/-- C3 amended: for all `Q1, Q2` whose normalized token sets have Jaccard
similarity STRICTLY greater than 0.8, after `set(Q1, R)` on a fresh
cache, `get(Q2)` at the same instant returns `R` (directly from tier 1
when the exact keys collide, otherwise through the similarity tier). -/
theorem similarity_above_strict_threshold_hits {V : Type} (q1 q2 : String)
    (r : V) (now : ℚ)
    (hsim : querySimilarity (normalizeQuery q2) (normalizeQuery q1) > 4 / 5) :
    ∀ fuel, getCachedResult (fuel + 2) now
      (setCachedResult now (CacheService.fresh V) q1 r) q2 = some (some r) := by
  intro fuel
  have httl : (0 : ℚ) < ((CacheService.fresh V).memory_cache).ttl := by
    norm_num [CacheService.fresh]
  have hmem1 : (setCachedResult now (CacheService.fresh V) q1 r).memory_cache.lookup
      now (getCacheKey q1) = some r :=
    TTLCacheM.lookup_setItem_self _ _ _ _ httl
  by_cases hkey : getCacheKey q2 = getCacheKey q1
  · simp only [getCachedResult]
    rw [hkey, hmem1]
  · have hm : (setCachedResult now (CacheService.fresh V) q1 r).memory_cache =
        ⟨1000, 300, [⟨getCacheKey q1, r, now + 300⟩]⟩ := rfl
    have hs : (setCachedResult now (CacheService.fresh V) q1 r).similarity_cache =
        ⟨500, 1800, [⟨normalizeQuery q1, q1, now + 1800⟩]⟩ := rfl
    have hmiss : (setCachedResult now (CacheService.fresh V) q1 r).memory_cache.lookup
        now (getCacheKey q2) = none := by
      rw [hm, TTLCacheM.lookup_single, if_neg]
      exact fun hc => Ne.symm hkey hc.2
    have hfind : findSimilar now
        (setCachedResult now (CacheService.fresh V) q1 r).similarity_cache
        (normalizeQuery q2) = some q1 := by
      rw [hs, findSimilar_single, if_pos]
      exact ⟨by rw [lt_add_iff_pos_right]; norm_num, hsim⟩
    simp only [getCachedResult]
    rw [hmiss, hfind]
    simp only [getCachedResult]
    rw [hmem1]

/-- Witness for `similarity_above_strict_threshold_hits`: an internal
whitespace variant normalizes to the same token set (similarity 1). -/
theorem similarity_above_strict_threshold_hits_witness :
    querySimilarity (normalizeQuery "A  B  C  D  E") (normalizeQuery "a b c d e") >
      4 / 5 ∧
    ∀ fuel, getCachedResult (fuel + 2) 0
      (setCachedResult 0 (CacheService.fresh Nat) "a b c d e" 7) "A  B  C  D  E" =
      some (some 7) :=
  ⟨by decide,
   similarity_above_strict_threshold_hits "a b c d e" "A  B  C  D  E" 7 0 (by decide)⟩

/-- C4 (code bug): a stale similarity entry pointing at an expired exact
entry does NOT degrade to a miss.  Set at time 0; at time 400 the memory
entry (TTL 300) is expired while the similarity entry (TTL 1800) is
live, so the similarity scan matches the query against its own stored
normalized form (similarity 1) and `get_cached_result` recursively calls
itself with the same original query for ever: no amount of fuel makes the
call return (Python: unbounded recursion ending in `RecursionError`,
which raises past the caller). -/
theorem stale_similarity_entry_diverges :
    ∀ fuel, getCachedResult fuel 400
      (setCachedResult 0 (CacheService.fresh Nat) "what is hb 55?" 7)
      "what is hb 55?" = none := by
  intro fuel
  induction fuel with
  | zero => rfl
  | succ n ih =>
    have h1 : (setCachedResult 0 (CacheService.fresh Nat) "what is hb 55?" 7).memory_cache.lookup
        400 (getCacheKey "what is hb 55?") = none := by decide
    have h2 : findSimilar 400
        (setCachedResult 0 (CacheService.fresh Nat) "what is hb 55?" 7).similarity_cache
        (normalizeQuery "what is hb 55?") = some "what is hb 55?" := by decide
    simp only [getCachedResult]
    rw [h1, h2]
    exact ih

/-- The response payload of end-to-end scenario A in the spec. -/
structure RagResponse where
  result : String
  documents_found : Nat
deriving DecidableEq

/-- The cache state of scenario A:
`set("What is HB 55?", {"result": "...", "documents_found": 2})` on a
fresh cache at time 0. -/
def scenarioCache : CacheService RagResponse :=
  setCachedResult 0 (CacheService.fresh RagResponse) "What is HB 55?" ⟨"...", 2⟩

/-- C8 counterexample: the spec's scenario A claims
`get("what is hb 55")` is a tier-2 hit returning the stored payload, but
dropping the `"?"` changes the token `"55?"` to `"55"`, so the Jaccard
similarity of the normalized token sets is `3/5 = 0.6`, below the `0.8`
threshold: the call is a full miss (`some none`). -/
theorem scenario_a_counterexample :
    querySimilarity (normalizeQuery "what is hb 55") (normalizeQuery "What is HB 55?") =
      3 / 5 ∧
    getCachedResult 5 0 scenarioCache "what is hb 55" = some none := by
  constructor
  · decide
  · decide

/-- C8 amended: a case/duplicated-internal-whitespace variant that keeps
the question mark, `get("what  IS  hb 55?")`, misses tier 1 (different
exact key), matches the similarity tier (the collapsed normalized form is
identical to the stored one, similarity 1 > 0.8), and returns the stored
payload. -/
theorem scenario_a_whitespace_variant :
    scenarioCache.memory_cache.lookup 0 (getCacheKey "what  IS  hb 55?") = none ∧
    findSimilar 0 scenarioCache.similarity_cache
      (normalizeQuery "what  IS  hb 55?") = some "What is HB 55?" ∧
    getCachedResult 5 0 scenarioCache "what  IS  hb 55?" =
      some (some ⟨"...", 2⟩) := by
  refine ⟨by decide, by decide, by decide⟩

/-! ## Connection pool (`connection_pool.py`) -/

/-- A Pinecone client connection, identified by its Python object id. -/
structure Conn where
  objId : Nat
deriving DecidableEq

/-- A Python value that can be tested for membership in the pool's
`_in_use` set.  `get_connection` stores `id(connection)` — an int —
while `release_connection` tests the connection object itself. -/
inductive PyVal where
  | intV (n : Nat)
  | connV (c : Conn)
deriving DecidableEq

/-- State of a `PineconeConnectionPool`: configuration, the idle `_pool`
list, the `_in_use` set of Python values, the `_stats` counters, and the
model's allocator `next_id` for fresh object ids. -/
structure PoolState where
  max_connections : Nat
  retry_attempts : Nat
  pool : List Conn
  in_use : Finset PyVal
  connections_created : Nat
  connections_reused : Nat
  connections_failed : Nat
  active_connections : Int
  total_requests : Nat
  next_id : Nat

/-- `PineconeConnectionPool.__init__`: empty idle pool, empty in-use set,
zeroed statistics (defaults `max_connections=20`, `retry_attempts=3`). -/
def PoolState.init (maxConn : Nat := 20) (retries : Nat := 3) : PoolState :=
  ⟨maxConn, retries, [], ∅, 0, 0, 0, 0, 0, 0⟩

/-- The first locked section of `get_connection`: bump `total_requests`;
pop the most recently returned idle connection if any (Python
`list.pop()` takes the last element) and record its id as in-use;
otherwise, when strictly under the limit, create a fresh connection
(`createOk` says whether the `Pinecone(...)` constructor succeeds — on
failure `_create_connection` returns `None` and bumps the failure
counter); otherwise leave the caller without a connection. -/
def tryAcquireFirst (createOk : Bool) (s : PoolState) : PoolState × Option Conn :=
  let s := { s with total_requests := s.total_requests + 1 }
  match s.pool.getLast? with
  | some c =>
    ({ s with pool := s.pool.dropLast,
              in_use := insert (PyVal.intV c.objId) s.in_use,
              connections_reused := s.connections_reused + 1,
              active_connections := s.active_connections + 1 }, some c)
  | none =>
    if s.in_use.card < s.max_connections then
      if createOk then
        ({ s with in_use := insert (PyVal.intV s.next_id) s.in_use,
                  connections_created := s.connections_created + 1,
                  active_connections := s.active_connections + 1,
                  next_id := s.next_id + 1 }, some ⟨s.next_id⟩)
      else ({ s with connections_failed := s.connections_failed + 1 }, none)
    else (s, none)

/-- One iteration of the retry loop's locked section of `get_connection`:
pop an idle connection if one has appeared, otherwise do nothing. -/
def retryPop (s : PoolState) : PoolState × Option Conn :=
  match s.pool.getLast? with
  | some c =>
    ({ s with pool := s.pool.dropLast,
              in_use := insert (PyVal.intV c.objId) s.in_use,
              connections_reused := s.connections_reused + 1,
              active_connections := s.active_connections + 1 }, some c)
  | none => (s, none)

/-- The `finally` block of `get_connection` — the only code path that
actually releases a scoped connection: if `id(connection)` is in the
in-use set, remove it, and return the connection to the idle pool only
while the pool is below half of `max_connections` (integer division),
otherwise discard it. -/
def releaseFinally (c : Conn) (s : PoolState) : PoolState :=
  if PyVal.intV c.objId ∈ s.in_use then
    let s1 := { s with in_use := s.in_use.erase (PyVal.intV c.objId),
                       active_connections := s.active_connections - 1 }
    if s1.pool.length < s1.max_connections / 2 then
      { s1 with pool := s1.pool ++ [c] }
    else s1
  else s

/-- `release_connection`: the guard `connection in self._in_use` tests
the connection OBJECT against a set of int ids. -/
def releaseConnection (c : Conn) (s : PoolState) : PoolState :=
  if PyVal.connV c ∈ s.in_use then
    let s1 := { s with in_use := s.in_use.erase (PyVal.connV c) }
    if s1.pool.length < s1.max_connections then
      { s1 with pool := s1.pool ++ [c],
                connections_reused := s1.connections_reused + 1 }
    else s1
  else s

/-- Pool states reachable by any interleaving of `get_connection`
first-attempt sections (with connection creation succeeding or failing),
retry-loop iterations, scoped releases from the `finally` block (with an
arbitrary connection, which over-approximates the real program where only
currently held connections are released), and direct `release_connection`
calls. -/
inductive Reachable : PoolState → Prop
  | init (maxConn retries : Nat) : Reachable (PoolState.init maxConn retries)
  | firstAttempt (ok : Bool) {s : PoolState} :
      Reachable s → Reachable (tryAcquireFirst ok s).1
  | retryAttempt {s : PoolState} : Reachable s → Reachable (retryPop s).1
  | scopedRelease (c : Conn) {s : PoolState} :
      Reachable s → Reachable (releaseFinally c s)
  | directRelease (c : Conn) {s : PoolState} :
      Reachable s → Reachable (releaseConnection c s)

/-- The inductive pool invariant: idle plus in-use connections are
bounded by `max_connections`; no idle connection's id is in the in-use
set; the in-use set contains only int ids, all below the allocator; idle
connections have ids below the allocator; and the idle pool has no
duplicate ids. -/
def PoolInv (s : PoolState) : Prop :=
  s.pool.length + s.in_use.card ≤ s.max_connections ∧
  (∀ c ∈ s.pool, PyVal.intV c.objId ∉ s.in_use) ∧
  (∀ v ∈ s.in_use, ∃ n, v = PyVal.intV n ∧ n < s.next_id) ∧
  (∀ c ∈ s.pool, c.objId < s.next_id) ∧
  (s.pool.map Conn.objId).Nodup

/-- Popping the last idle connection and marking its id in-use preserves
the invariant (shared by the first attempt and the retry loop). -/
theorem poolInv_pop (maxc _retr : Nat) (l' : List Conn) (c0 : Conn)
    (u : Finset PyVal) (nid : Nat)
    (inv1 : (l' ++ [c0]).length + u.card ≤ maxc)
    (inv2 : ∀ c ∈ l' ++ [c0], PyVal.intV c.objId ∉ u)
    (inv3 : ∀ v ∈ u, ∃ n, v = PyVal.intV n ∧ n < nid)
    (inv4 : ∀ c ∈ l' ++ [c0], c.objId < nid)
    (inv5 : ((l' ++ [c0]).map Conn.objId).Nodup) :
    l'.length + (insert (PyVal.intV c0.objId) u).card ≤ maxc ∧
    (∀ c ∈ l', PyVal.intV c.objId ∉ insert (PyVal.intV c0.objId) u) ∧
    (∀ v ∈ insert (PyVal.intV c0.objId) u, ∃ n, v = PyVal.intV n ∧ n < nid) ∧
    (∀ c ∈ l', c.objId < nid) ∧
    (l'.map Conn.objId).Nodup := by
  have hc0 : c0 ∈ l' ++ [c0] := by simp
  have hnotmem : PyVal.intV c0.objId ∉ u := inv2 c0 hc0
  have hnid : c0.objId ∉ l'.map Conn.objId := by
    intro hmem
    have h2 := inv5
    simp only [List.map_append, List.map_cons, List.map_nil] at h2
    exact (List.nodup_append.mp h2).2.2 hmem (by simp)
  refine ⟨?_, ?_, ?_, ?_, ?_⟩
  · rw [Finset.card_insert_of_not_mem hnotmem]
    have h3 : (l' ++ [c0]).length = l'.length + 1 := by simp
    omega
  · intro c hc
    rw [Finset.mem_insert]
    push_neg
    refine ⟨?_, inv2 c (List.mem_append_left _ hc)⟩
    intro heq
    injection heq with h
    exact hnid (h ▸ List.mem_map_of_mem Conn.objId hc)
  · intro v hv
    rcases Finset.mem_insert.mp hv with h | h
    · exact ⟨c0.objId, h, inv4 c0 hc0⟩
    · exact inv3 v h
  · exact fun c hc => inv4 c (List.mem_append_left _ hc)
  · have h2 := inv5
    simp only [List.map_append] at h2
    exact h2.of_append_left

/-- The first locked attempt of `get_connection` preserves the pool
invariant. -/
theorem poolInv_tryAcquireFirst (ok : Bool) (s : PoolState) (inv : PoolInv s) :
    PoolInv (tryAcquireFirst ok s).1 := by
  obtain ⟨maxc, retr, pool, u, st1, st2, st3, st4, st5, nid⟩ := s
  obtain ⟨inv1, inv2, inv3, inv4, inv5⟩ := inv
  dsimp only at inv1 inv2 inv3 inv4 inv5
  rcases List.eq_nil_or_concat pool with hnil | ⟨l', c0, hl⟩
  · subst hnil
    simp only [tryAcquireFirst, List.getLast?_nil]
    by_cases hcard : u.card < maxc
    · rw [if_pos hcard]
      cases ok
      · rw [if_neg (by simp)]
        exact ⟨inv1, inv2, inv3, inv4, inv5⟩
      · rw [if_pos rfl]
        refine ⟨?_, ?_, ?_, ?_, ?_⟩
        · show [].length + (insert (PyVal.intV nid) u).card ≤ maxc
          have h1 : (insert (PyVal.intV nid) u).card ≤ u.card + 1 :=
            Finset.card_insert_le _ _
          simp only [List.length_nil]
          omega
        · intro c hc
          exact absurd hc (List.not_mem_nil c)
        · intro v hv
          show ∃ n, v = PyVal.intV n ∧ n < nid + 1
          rcases Finset.mem_insert.mp hv with h | h
          · exact ⟨nid, h, by omega⟩
          · obtain ⟨n, hn, hlt⟩ := inv3 v h
            exact ⟨n, hn, by omega⟩
        · intro c hc
          exact absurd hc (List.not_mem_nil c)
        · exact List.nodup_nil
    · rw [if_neg hcard]
      exact ⟨inv1, inv2, inv3, inv4, inv5⟩
  · rw [List.concat_eq_append] at hl
    subst hl
    simp only [tryAcquireFirst, List.getLast?_concat, List.dropLast_concat]
    exact poolInv_pop maxc retr l' c0 u nid inv1 inv2 inv3 inv4 inv5

/-- A retry-loop iteration preserves the pool invariant. -/
theorem poolInv_retryPop (s : PoolState) (inv : PoolInv s) :
    PoolInv (retryPop s).1 := by
  obtain ⟨maxc, retr, pool, u, st1, st2, st3, st4, st5, nid⟩ := s
  obtain ⟨inv1, inv2, inv3, inv4, inv5⟩ := inv
  dsimp only at inv1 inv2 inv3 inv4 inv5
  rcases List.eq_nil_or_concat pool with hnil | ⟨l', c0, hl⟩
  · subst hnil
    simp only [retryPop, List.getLast?_nil]
    exact ⟨inv1, inv2, inv3, inv4, inv5⟩
  · rw [List.concat_eq_append] at hl
    subst hl
    simp only [retryPop, List.getLast?_concat, List.dropLast_concat]
    exact poolInv_pop maxc retr l' c0 u nid inv1 inv2 inv3 inv4 inv5

/-- The scoped release in `get_connection`'s `finally` block preserves
the pool invariant. -/
theorem poolInv_releaseFinally (c : Conn) (s : PoolState) (inv : PoolInv s) :
    PoolInv (releaseFinally c s) := by
  obtain ⟨maxc, retr, pool, u, st1, st2, st3, st4, st5, nid⟩ := s
  obtain ⟨inv1, inv2, inv3, inv4, inv5⟩ := inv
  dsimp only at inv1 inv2 inv3 inv4 inv5
  simp only [releaseFinally]
  by_cases hmem : PyVal.intV c.objId ∈ u
  · have hcard : u.card = (u.erase (PyVal.intV c.objId)).card + 1 := by
      rw [Finset.card_erase_of_mem hmem]
      have h0 : 0 < u.card := Finset.card_pos.mpr ⟨_, hmem⟩
      omega
    have hobj : c.objId < nid := by
      obtain ⟨n, hn, hlt⟩ := inv3 _ hmem
      injection hn with h
      exact h ▸ hlt
    have hnotinpool : c.objId ∉ pool.map Conn.objId := by
      intro hmem2
      obtain ⟨c'', hc'', heq⟩ := List.mem_map.mp hmem2
      exact inv2 c'' hc'' (heq ▸ hmem)
    have herase2 : ∀ c' ∈ pool, PyVal.intV c'.objId ∉ u.erase (PyVal.intV c.objId) :=
      fun c' hc' hmem2 => inv2 c' hc' (Finset.mem_of_mem_erase hmem2)
    have herase3 : ∀ v ∈ u.erase (PyVal.intV c.objId), ∃ n, v = PyVal.intV n ∧ n < nid :=
      fun v hv => inv3 v (Finset.mem_of_mem_erase hv)
    rw [if_pos hmem]
    by_cases hlen : pool.length < maxc / 2
    · rw [if_pos hlen]
      refine ⟨?_, ?_, herase3, ?_, ?_⟩
      · show (pool ++ [c]).length + (u.erase (PyVal.intV c.objId)).card ≤ maxc
        have h3 : (pool ++ [c]).length = pool.length + 1 := by simp
        omega
      · intro c' hc'
        rcases List.mem_append.mp hc' with h | h
        · exact herase2 c' h
        · simp only [List.mem_cons, List.not_mem_nil, or_false] at h
          subst h
          exact Finset.not_mem_erase _ _
      · intro c' hc'
        rcases List.mem_append.mp hc' with h | h
        · exact inv4 c' h
        · simp only [List.mem_cons, List.not_mem_nil, or_false] at h
          subst h
          exact hobj
      · simp only [List.map_append, List.map_cons, List.map_nil]
        rw [List.nodup_append]
        refine ⟨inv5, List.nodup_singleton _, fun a ha hb => ?_⟩
        simp only [List.mem_cons, List.not_mem_nil, or_false] at hb
        exact hnotinpool (hb ▸ ha)
    · rw [if_neg hlen]
      refine ⟨?_, herase2, herase3, inv4, inv5⟩
      show pool.length + (u.erase (PyVal.intV c.objId)).card ≤ maxc
      omega
  · rw [if_neg hmem]
    exact ⟨inv1, inv2, inv3, inv4, inv5⟩

/-- Under the invariant that the in-use set holds only int ids,
`release_connection` is the identity: the membership test compares a
connection object against ids and always fails. -/
theorem releaseConnection_eq_of_ids (c : Conn) (s : PoolState)
    (h3 : ∀ v ∈ s.in_use, ∃ n, v = PyVal.intV n ∧ n < s.next_id) :
    releaseConnection c s = s := by
  have hnot : PyVal.connV c ∉ s.in_use := by
    intro hmem
    obtain ⟨n, heq, _⟩ := h3 _ hmem
    exact PyVal.noConfusion heq
  simp [releaseConnection, hnot]

/-- Every reachable pool state satisfies the invariant. -/
theorem reachable_poolInv {s : PoolState} (h : Reachable s) : PoolInv s := by
  induction h with
  | init maxConn retries =>
    refine ⟨?_, ?_, ?_, ?_, ?_⟩ <;> simp [PoolState.init]
  | firstAttempt ok h ih => exact poolInv_tryAcquireFirst ok _ ih
  | retryAttempt h ih => exact poolInv_retryPop _ ih
  | scopedRelease c h ih => exact poolInv_releaseFinally c _ ih
  | directRelease c h ih =>
    rw [releaseConnection_eq_of_ids c _ ih.2.2.1]
    exact ih

/-- C1: at every point of any interleaving of `get_connection`
acquisitions and releases, the in-use count never exceeds
`max_connections`, and no connection is simultaneously in the idle pool
list and (by id) in the in-use set. -/
theorem pool_in_use_bounded_and_disjoint (s : PoolState) (h : Reachable s) :
    s.in_use.card ≤ s.max_connections ∧
    ∀ c ∈ s.pool, PyVal.intV c.objId ∉ s.in_use := by
  obtain ⟨inv1, inv2, _⟩ := reachable_poolInv h
  exact ⟨le_trans (Nat.le_add_left _ _) inv1, inv2⟩

/-- Witness for `pool_in_use_bounded_and_disjoint` after one successful
acquisition on a pool with `max_connections = 2`. -/
theorem pool_in_use_bounded_and_disjoint_witness :
    Reachable (tryAcquireFirst true (PoolState.init 2 3)).1 ∧
    ((tryAcquireFirst true (PoolState.init 2 3)).1.in_use.card ≤
        (tryAcquireFirst true (PoolState.init 2 3)).1.max_connections ∧
      ∀ c ∈ (tryAcquireFirst true (PoolState.init 2 3)).1.pool,
        PyVal.intV c.objId ∉ (tryAcquireFirst true (PoolState.init 2 3)).1.in_use) :=
  ⟨Reachable.firstAttempt true (Reachable.init 2 3),
   pool_in_use_bounded_and_disjoint _ (Reachable.firstAttempt true (Reachable.init 2 3))⟩

/-- C10: calling `release_connection` directly on a connection obtained
from `get_connection` changes nothing: the in-use set stores `id(c)`,
never `c` itself, so the membership guard fails; only the
context-manager's `finally` path releases connections. -/
theorem release_connection_is_noop (s : PoolState) (c : Conn) (h : Reachable s) :
    releaseConnection c s = s :=
  releaseConnection_eq_of_ids c s (reachable_poolInv h).2.2.1

/-- Witness for `release_connection_is_noop`: after one acquisition the
created connection (id 0) cannot be released through
`release_connection`. -/
theorem release_connection_is_noop_witness :
    Reachable (tryAcquireFirst true (PoolState.init 20 3)).1 ∧
    releaseConnection ⟨0⟩ (tryAcquireFirst true (PoolState.init 20 3)).1 =
      (tryAcquireFirst true (PoolState.init 20 3)).1 :=
  ⟨Reachable.firstAttempt true (Reachable.init 20 3),
   release_connection_is_noop _ ⟨0⟩ (Reachable.firstAttempt true (Reachable.init 20 3))⟩

/-- The single error `get_connection` can raise when acquisition fails:
`Exception("Unable to acquire connection from pool")`. -/
inductive PoolError where
  | poolExhausted
deriving DecidableEq

/-- The message of the raised exception. -/
def poolErrorMessage : PoolError → String
  | .poolExhausted => "Unable to acquire connection from pool"

/-- The retry loop of `get_connection`: when the first attempt yielded no
connection, sleep `retry_delay` and re-check the idle pool, up to
`retry_attempts` iterations; modelled here with no concurrent task
mutating the pool between iterations.  Raises the pool-exhausted error
once the attempts are spent. -/
def retryLoop : Nat → PoolState → PoolState × Except PoolError Conn
  | 0, s => (s, Except.error PoolError.poolExhausted)
  | n + 1, s =>
    match retryPop s with
    | (s', some c) => (s', Except.ok c)
    | (s', none) => retryLoop n s'

/-- The acquisition phase of `get_connection` (everything before
`yield`): first locked attempt, then the bounded retry loop, then either
a connection or the pool-exhausted error. -/
def getConnection (createOk : Bool) (s : PoolState) :
    PoolState × Except PoolError Conn :=
  match tryAcquireFirst createOk s with
  | (s1, some c) => (s1, Except.ok c)
  | (s1, none) => retryLoop s.retry_attempts s1

/-- C6: when the pool is exhausted (no idle connection, in-use count at
or above `max_connections`) and no connection is released meanwhile,
`get_connection` runs its bounded retry loop and then fails with the
explicit pool-exhausted error — state unchanged except the request
counter, so no connection beyond the limit is ever handed out — and that
error carries the distinguishable pool-exhaustion message. -/
theorem pool_exhausted_raises (s : PoolState) (ok : Bool)
    (hpool : s.pool = []) (hfull : s.max_connections ≤ s.in_use.card) :
    getConnection ok s =
      ({ s with total_requests := s.total_requests + 1 },
        Except.error PoolError.poolExhausted) ∧
    poolErrorMessage PoolError.poolExhausted =
      "Unable to acquire connection from pool" := by
  have hloop : ∀ (n : Nat) (t : PoolState), t.pool = [] →
      retryLoop n t = (t, Except.error PoolError.poolExhausted) := by
    intro n
    induction n with
    | zero => intro t ht; rfl
    | succ m ih =>
      intro t ht
      simp only [retryLoop, retryPop, ht, List.getLast?_nil]
      exact ih t ht
  have hfirst : tryAcquireFirst ok s =
      ({ s with total_requests := s.total_requests + 1 }, none) := by
    have h1 : ({ s with total_requests := s.total_requests + 1 } : PoolState).pool
        = [] := hpool
    simp only [tryAcquireFirst, hpool, List.getLast?_nil]
    rw [if_neg (Nat.not_lt.mpr hfull)]
  refine ⟨?_, rfl⟩
  simp only [getConnection, hfirst]
  exact hloop _ _ hpool

/-- Witness for `pool_exhausted_raises`: a pool with
`max_connections = 1` after one successful acquisition. -/
theorem pool_exhausted_raises_witness :
    (tryAcquireFirst true (PoolState.init 1 3)).1.pool = [] ∧
    (tryAcquireFirst true (PoolState.init 1 3)).1.max_connections ≤
      (tryAcquireFirst true (PoolState.init 1 3)).1.in_use.card ∧
    (getConnection true (tryAcquireFirst true (PoolState.init 1 3)).1).2 =
      Except.error PoolError.poolExhausted :=
  ⟨rfl, by decide, by
    rw [(pool_exhausted_raises (tryAcquireFirst true (PoolState.init 1 3)).1 true
      rfl (by decide)).1]⟩

/-! ## Performance monitor (`performance_monitor.py`) -/

/-- A `RequestMetrics` record. -/
structure ReqMetrics where
  timestamp : ℚ
  endpoint : String
  query : String
  duration_ms : ℚ
  cache_hit : Bool
  documents_found : Nat
  error : Bool
  status_code : Nat
deriving DecidableEq

/-- The monitor's global `stats` dict (the keys `record_request`
maintains). -/
structure MonitorStats where
  total_requests : Nat
  cache_hits : Nat
  cache_misses : Nat
  total_errors : Nat
  avg_response_time_ms : ℚ
  requests_per_minute : ℚ
deriving DecidableEq

/-- One `endpoint_stats` entry. -/
structure EndpointStat where
  requests : Nat
  avg_duration_ms : ℚ
  errors : Nat
  cache_hits : Nat
  cache_misses : Nat
deriving DecidableEq

/-- The `defaultdict` default for `endpoint_stats`. -/
def endpointDefault : EndpointStat := ⟨0, 0, 0, 0, 0⟩

/-- Read an endpoint entry, defaulting like the `defaultdict`. -/
def lookupEndpoint (l : List (String × EndpointStat)) (e : String) : EndpointStat :=
  match l.find? fun p => p.1 == e with
  | some p => p.2
  | none => endpointDefault

/-- Write back an endpoint entry. -/
def setEndpoint : List (String × EndpointStat) → String → EndpointStat →
    List (String × EndpointStat)
  | [], e, st => [(e, st)]
  | p :: ps, e, st =>
    if p.1 == e then (e, st) :: ps else p :: setEndpoint ps e st

/-- State of a `PerformanceMonitor` (the request-side part; the system
snapshot buffer is independent of the claims). -/
structure PerfMonitor where
  max_request_history : Nat
  request_history : List ReqMetrics
  stats : MonitorStats
  endpoint_stats : List (String × EndpointStat)

/-- `PerformanceMonitor.__init__` (history capacity default 10000). -/
def PerfMonitor.init (maxHist : Nat := 10000) : PerfMonitor :=
  ⟨maxHist, [], ⟨0, 0, 0, 0, 0, 0⟩, []⟩

/-- `deque(maxlen=n)` append: drop from the front once over capacity. -/
def dequeAppend (maxlen : Nat) (l : List α) (x : α) : List α :=
  let l1 := l ++ [x]
  l1.drop (l1.length - maxlen)

/-- The running-average update in `_update_averages` (used for both the
global and the per-endpoint average); at this point the request counter
has already been incremented, so `total_requests ≥ 1`. -/
def updateAvgGlobal (current_avg duration_ms : ℚ) (total_requests : Nat) : ℚ :=
  if total_requests = 1 then duration_ms
  else (current_avg * ((total_requests - 1 : Nat) : ℚ) + duration_ms) /
    (total_requests : ℚ)

/-- `record_request`: append the (query-truncated) metric to the rolling
history, bump the counters, and refresh the global and per-endpoint
running averages. -/
def recordRequest (m : PerfMonitor) (r : ReqMetrics) : PerfMonitor :=
  let metrics := { r with query := ⟨r.query.data.take 100⟩ }
  let history := dequeAppend m.max_request_history m.request_history metrics
  let stats1 : MonitorStats := { m.stats with
    total_requests := m.stats.total_requests + 1,
    cache_hits := if r.cache_hit then m.stats.cache_hits + 1 else m.stats.cache_hits,
    cache_misses := if r.cache_hit then m.stats.cache_misses else m.stats.cache_misses + 1,
    total_errors := if r.error then m.stats.total_errors + 1 else m.stats.total_errors }
  let ep0 := lookupEndpoint m.endpoint_stats r.endpoint
  let ep1 : EndpointStat := { ep0 with
    requests := ep0.requests + 1,
    cache_hits := if r.cache_hit then ep0.cache_hits + 1 else ep0.cache_hits,
    cache_misses := if r.cache_hit then ep0.cache_misses else ep0.cache_misses + 1,
    errors := if r.error then ep0.errors + 1 else ep0.errors }
  let stats2 : MonitorStats :=
    { stats1 with
      avg_response_time_ms :=
        updateAvgGlobal stats1.avg_response_time_ms r.duration_ms
          stats1.total_requests }
  let ep2 : EndpointStat :=
    { ep1 with
      avg_duration_ms :=
        updateAvgGlobal ep1.avg_duration_ms r.duration_ms ep1.requests }
  { m with
    request_history := history
    stats := stats2
    endpoint_stats := setEndpoint m.endpoint_stats r.endpoint ep2 }

/-- Recording a sequence of requests on a fresh monitor. -/
def recordAll (rs : List ReqMetrics) : PerfMonitor :=
  rs.foldl recordRequest (PerfMonitor.init)

/-- One `record_request` bumps `total_requests` by one. -/
theorem recordRequest_total (m : PerfMonitor) (r : ReqMetrics) :
    (recordRequest m r).stats.total_requests = m.stats.total_requests + 1 := rfl

/-- One `record_request` applies the incremental update to the global
average, with the already-incremented counter. -/
theorem recordRequest_avg (m : PerfMonitor) (r : ReqMetrics) :
    (recordRequest m r).stats.avg_response_time_ms =
      updateAvgGlobal m.stats.avg_response_time_ms r.duration_ms
        (m.stats.total_requests + 1) := rfl

/-- After recording `rs` on a fresh monitor, the request counter equals
the number of records and the running average times that count equals the
sum of the durations. -/
theorem recordAll_total_and_sum (rs : List ReqMetrics) :
    (recordAll rs).stats.total_requests = rs.length ∧
    (recordAll rs).stats.avg_response_time_ms * (rs.length : ℚ) =
      (rs.map ReqMetrics.duration_ms).sum := by
  induction rs using List.reverseRecOn with
  | nil => simp [recordAll, PerfMonitor.init]
  | append_singleton l r ih =>
    obtain ⟨ih1, ih2⟩ := ih
    have hstep : recordAll (l ++ [r]) = recordRequest (recordAll l) r := by
      simp [recordAll, List.foldl_append]
    have htot : (recordAll (l ++ [r])).stats.total_requests = l.length + 1 := by
      rw [hstep, recordRequest_total, ih1]
    constructor
    · simpa using htot
    · rw [hstep, recordRequest_avg, ih1]
      rcases Nat.eq_zero_or_pos l.length with hzero | hpos
      · have hln : l = [] := List.length_eq_zero.mp hzero
        subst hln
        simp [updateAvgGlobal]
      · have hone : l.length + 1 ≠ 1 := by omega
        have hsub : ((l.length + 1 - 1 : Nat) : ℚ) = (l.length : ℚ) := by
          norm_num
        have hcast : ((l.length + 1 : Nat) : ℚ) ≠ 0 := by
          positivity
        have hlen2 : (((l ++ [r]).length : Nat) : ℚ) = (l.length : ℚ) + 1 := by
          push_cast [List.length_append, List.length_singleton]
          ring
        have hne1 : ((l.length : ℚ) + 1) ≠ 0 := by positivity
        rw [updateAvgGlobal, if_neg hone, hsub, hlen2]
        push_cast
        rw [div_mul_cancel₀ _ hne1, ih2]
        simp [List.map_append]

/-- C7: after recording requests with durations `d1..dK` (K ≥ 1), the
maintained `avg_response_time_ms` equals the arithmetic mean of
`d1..dK` exactly over `ℚ`, and the implemented incremental update
`(avg·(n-1) + x)/n` (with `avg' = x` at `n = 1`) coincides with the
spec's incremental-mean formula `avg + (x - avg)/n` for every `n ≥ 1`. -/
theorem monitor_avg_is_mean (rs : List ReqMetrics) (hne : rs ≠ []) :
    (recordAll rs).stats.avg_response_time_ms =
      (rs.map ReqMetrics.duration_ms).sum / (rs.length : ℚ) ∧
    ∀ (avg x : ℚ) (n : Nat), n ≠ 0 →
      updateAvgGlobal avg x n = avg + (x - avg) / (n : ℚ) := by
  constructor
  · obtain ⟨h1, h2⟩ := recordAll_total_and_sum rs
    have hlen : (rs.length : ℚ) ≠ 0 :=
      Nat.cast_ne_zero.mpr fun h => hne (List.length_eq_zero.mp h)
    rw [eq_div_iff hlen]
    exact h2
  · intro avg x n hn
    by_cases hone : n = 1
    · subst hone
      simp [updateAvgGlobal]
    · have h1 : 1 ≤ n := Nat.one_le_iff_ne_zero.mpr hn
      have hsub : ((n - 1 : Nat) : ℚ) = (n : ℚ) - 1 := by
        push_cast [h1]
        ring
      have hcast : (n : ℚ) ≠ 0 := Nat.cast_ne_zero.mpr hn
      rw [updateAvgGlobal, if_neg hone, hsub]
      field_simp
      ring

/-- Witness for `monitor_avg_is_mean` on two concrete requests with
durations 10 and 20. -/
theorem monitor_avg_is_mean_witness :
    ([(⟨0, "/rag", "q1", 10, true, 1, false, 200⟩ : ReqMetrics),
      ⟨1, "/rag", "q2", 20, false, 0, false, 200⟩] ≠ ([] : List ReqMetrics)) ∧
    ((recordAll [⟨0, "/rag", "q1", 10, true, 1, false, 200⟩,
        ⟨1, "/rag", "q2", 20, false, 0, false, 200⟩]).stats.avg_response_time_ms =
      (([(⟨0, "/rag", "q1", 10, true, 1, false, 200⟩ : ReqMetrics),
         ⟨1, "/rag", "q2", 20, false, 0, false, 200⟩].map
           ReqMetrics.duration_ms).sum) /
        (([(⟨0, "/rag", "q1", 10, true, 1, false, 200⟩ : ReqMetrics),
           ⟨1, "/rag", "q2", 20, false, 0, false, 200⟩].length : Nat) : ℚ) ∧
     ∀ (avg x : ℚ) (n : Nat), n ≠ 0 →
       updateAvgGlobal avg x n = avg + (x - avg) / (n : ℚ)) :=
  ⟨by simp,
   monitor_avg_is_mean
     [⟨0, "/rag", "q1", 10, true, 1, false, 200⟩,
      ⟨1, "/rag", "q2", 20, false, 0, false, 200⟩] (by simp)⟩

/-- The part of the dict returned by `get_real_time_stats` that the
claims concern. -/
structure RealTimeStats where
  requests_per_second : ℚ
  avg_response_time_ms : ℚ
  active_requests : Nat
deriving DecidableEq

/-- `get_real_time_stats`: filter the rolling history to the last 5
minutes (timestamp at or after `now - 300`), then report
`len(recent)/5` as `requests_per_second` (the inline comment says
"requests per second") and the windowed mean duration. -/
def getRealTimeStats (now : ℚ) (m : PerfMonitor) : RealTimeStats :=
  let recent := m.request_history.filter fun r => decide (now - 300 ≤ r.timestamp)
  { requests_per_second := if recent.isEmpty then 0 else (recent.length : ℚ) / 5,
    avg_response_time_ms :=
      if recent.isEmpty then 0
      else (recent.map ReqMetrics.duration_ms).sum / (recent.length : ℚ),
    active_requests := recent.length }

/-- C9 (code bug): with exactly one request recorded inside the 5-minute
window, `get_real_time_stats` reports `requests_per_second = 1/5` —
`len(recent)/5`, a per-MINUTE rate — although its own inline comment and
the reported key name say requests per second and the spec says
`count / 300`; and `1/5 ≠ 1/300`. -/
theorem rps_divides_by_five :
    (getRealTimeStats 1000
        (recordAll [⟨1000, "/rag", "q", 10, false, 0, false, 200⟩])).requests_per_second =
      1 / 5 ∧
    (1 / 5 : ℚ) ≠ 1 / 300 := by
  constructor
  · decide
  · decide

/-! ## Embeddings service (`embeddings_service.py`) -/

/-- The payload `set_cached_result` stores for one embedding:
`{"embedding": [...]}`. -/
structure EmbPayload where
  embedding : List ℚ
deriving DecidableEq

/-- Configuration of `OptimizedEmbeddingsService` (model name and the
maximum batch size). -/
structure EmbCfg where
  model : String
  batch_size : Nat
deriving DecidableEq

/-- The statistics counters of the embeddings service touched by
`embed_documents`. -/
structure EmbStats where
  embeddings_created : Nat
  cache_hits : Nat
  cache_misses : Nat
  batch_requests : Nat
  total_tokens : Nat
deriving DecidableEq

/-- `_get_embedding_cache_key`:
`"embedding:" + md5(f"{text}:{input_type}:{model}").hexdigest()`. -/
def embeddingCacheKey (cfg : EmbCfg) (text input_type : String) : String :=
  "embedding:" ++ md5Hex (text ++ ":" ++ input_type ++ ":" ++ cfg.model)

/-- The cache-check loop of `embed_documents`: walk the texts keeping
their positions, filling each slot with the cached embedding when
`get_cached_result` on its key hits (a fuel-exhausted cache call cannot
happen on the states used here and is treated as the miss it would
precede), and collecting `(index, text, cache_key)` for the uncached
ones. -/
def checkCacheLoop (cfg : EmbCfg) (fuel : Nat) (now : ℚ)
    (cache : CacheService EmbPayload) :
    Nat → List String → List (Option (List ℚ)) × List (Nat × String × String)
  | _, [] => ([], [])
  | idx, text :: rest =>
    let key := embeddingCacheKey cfg text "document"
    let tail := checkCacheLoop cfg fuel now cache (idx + 1) rest
    match getCachedResult fuel now cache key with
    | some (some p) => (some p.embedding :: tail.1, tail.2)
    | _ => (none :: tail.1, (idx, text, key) :: tail.2)

/-- The outcome of one `embed_documents` call: what the caller receives
(`result`), the internal embeddings list (`slots`, observable through the
cache and through a caller that catches the exception), the final cache
state, and the statistics. -/
structure EmbDocsResult where
  result : Except String (List (Option (List ℚ)))
  slots : List (Option (List ℚ))
  cache : CacheService EmbPayload
  stats : EmbStats

/-- `_process_embedding_batch`: run the external embedding collaborator
on the batch's texts; on success write each embedding into its slot and
cache it under its own key; on failure overwrite every slot of this
batch with the explicit failure marker `None` and re-raise the error
(recorded in the accumulator's error list). -/
def processBatch (_cfg : EmbCfg)
    (api : List String → Except String (List (List ℚ))) (now : ℚ)
    (acc : List (Option (List ℚ)) × CacheService EmbPayload × EmbStats × List String)
    (batch : List (Nat × String × String)) :
    List (Option (List ℚ)) × CacheService EmbPayload × EmbStats × List String :=
  match acc with
  | (slots, cache, stats, errs) =>
    match api (batch.map fun item => item.2.1) with
    | Except.ok batch_embeddings =>
      let written :=
        (batch.zip batch_embeddings).foldl
          (fun (p : List (Option (List ℚ)) × CacheService EmbPayload) item =>
            (p.1.set item.1.1 (some item.2),
             setCachedResult now p.2 item.1.2.2 ⟨item.2⟩))
          (slots, cache)
      (written.1, written.2,
       { stats with
         batch_requests := stats.batch_requests + 1
         embeddings_created := stats.embeddings_created + batch.length
         total_tokens := stats.total_tokens +
           (batch.map fun item => (pySplit item.2.1).length).sum },
       errs)
    | Except.error e =>
      (batch.foldl (fun sl item => sl.set item.1 none) slots, cache, stats,
       errs ++ [e])

/-- `embed_documents`: check the cache per text, split the uncached
texts into batches of `batch_size`, process every batch (asyncio
schedules all batch tasks; `gather` without `return_exceptions`
propagates the first exception to the caller while completed batch tasks
have already written their slots and cache entries — modelled by running
all batches and collecting errors), and hand the caller either the slot
list (no failures) or the first batch error. -/
def embedDocuments (cfg : EmbCfg)
    (api : List String → Except String (List (List ℚ))) (fuel : Nat) (now : ℚ)
    (cache : CacheService EmbPayload) (stats : EmbStats) (texts : List String) :
    EmbDocsResult :=
  if texts.isEmpty then ⟨Except.ok [], [], cache, stats⟩
  else
    let checked := checkCacheLoop cfg fuel now cache 0 texts
    let stats0 : EmbStats := { stats with
      cache_hits := stats.cache_hits + (texts.length - checked.2.length),
      cache_misses := stats.cache_misses + checked.2.length }
    let batches := chunksOf cfg.batch_size checked.2
    let processed := batches.foldl (processBatch cfg api now)
      (checked.1, cache, stats0, [])
    { result := match processed.2.2.2 with
        | [] => Except.ok processed.1
        | e :: _ => Except.error e
      slots := processed.1
      cache := processed.2.1
      stats := processed.2.2.1 }

/-- Embedding configuration of the batch-failure scenario: model `"m"`,
`batch_size = 2`. -/
def cfgEx : EmbCfg := ⟨"m", 2⟩

/-- An external embedding collaborator that fails exactly on the batch
`["c"]` and embeds every other text as `[1]`. -/
def apiEx : List String → Except String (List (List ℚ)) :=
  fun ts =>
    if ts = ["c"] then Except.error "boom"
    else Except.ok (ts.map fun _ => [1])

/-- The batch-failure scenario: `embed_documents(["a","b","c"])` on a
fresh cache with batch size 2, where the collaborator fails on the
second batch `["c"]`. -/
def embedOutEx : EmbDocsResult :=
  embedDocuments cfgEx apiEx 3 0 (CacheService.fresh EmbPayload)
    ⟨0, 0, 0, 0, 0⟩ ["a", "b", "c"]

/-- C5 counterexample: the claim says a failure in one batch propagates
an error for that subset only while every other batch's results are
still returned successfully to the caller.  In the two-batch scenario
the caller receives `Except.error "boom"` for the WHOLE call — no list
is returned at all — because `asyncio.gather` (no `return_exceptions`)
re-raises the batch exception out of `embed_documents`. -/
theorem batch_failure_fails_whole_call :
    embedOutEx.result = Except.error "boom" ∧
    ∀ l, embedOutEx.result ≠ Except.ok l := by
  have h1 : embedOutEx.result = Except.error "boom" := by rfl
  refine ⟨h1, fun l h => ?_⟩
  rw [h1] at h
  exact Except.noConfusion h

/-- C5 amended (proved on the two-batch scenario): the failed batch's
slots hold the explicit failure marker `None` (not a masked zero
vector), the successful batch's embeddings are computed, written into
their slots and cached under their keys, nothing is cached for the
failed batch — but the error propagates to the caller for the entire
`embed_documents` call rather than for the failed subset only. -/
theorem batch_failure_isolated_slots :
    embedOutEx.slots = [some [1], some [1], none] ∧
    embedOutEx.result = Except.error "boom" ∧
    embedOutEx.cache.memory_cache.lookup 0
      (getCacheKey (embeddingCacheKey cfgEx "a" "document")) = some ⟨[1]⟩ ∧
    embedOutEx.cache.memory_cache.lookup 0
      (getCacheKey (embeddingCacheKey cfgEx "b" "document")) = some ⟨[1]⟩ ∧
    embedOutEx.cache.memory_cache.lookup 0
      (getCacheKey (embeddingCacheKey cfgEx "c" "document")) = none := by
  refine ⟨by decide, by rfl, by decide, by decide, by decide⟩

end Legisync
